import Mathlib

/-!
Shallow embedding of the C-allocators-collection repository: three
fixed-capacity allocators over a contiguous backing buffer.

Sources embedded here:
  - `src/unnamed/part_000` — BumpArena (`arena_t`, `arena_init`,
    `arena_alloc`, `arena_reset`, `arena_deinit`);
  - `src/pool.h` and the identical implementation repeated in
    `src/pool_allocator.h` — ChunkPool (`pool_t`, `pool_init`, `pool_alloc`,
    `pool_free`, `pool_deinit`, and the `SET_BIT` / `CLEAR_BIT` / `CHECK_BIT`
    ledger macros);
  - the `MemStack` part of `src/pool_allocator.h` — StackAllocator
    (`mem_stack_init`, `mem_stack_alloc`, `mem_stack_pop`, `mem_stack_free`).

Modelling conventions:
  - `size_t` values are `Nat`; the one place the C code can overflow a
    `size_t` (the sum `stack->size + bytes` in `mem_stack_alloc`) is modelled
    with an explicit `% W` where `W = 2 ^ 64`;
  - a C pointer handle is `Option ⟨struct⟩` (`none` = `NULL`); a returned
    data pointer is modelled as a byte offset from the allocator's buffer
    base, wrapped in `Option` (`none` = `NULL` returned);
  - a call whose C execution is undefined (dereferencing a `NULL` handle,
    dividing by zero) evaluates to `CResult.undef`; a call with defined
    behaviour evaluates to `CResult.ok` of its result;
  - `init` functions are modelled on their success path (the path on which
    `malloc`/`calloc` did not fail and a handle is returned), which is what
    every claim about initialized allocators quantifies over.
-/

/-- Width of `size_t`: machine arithmetic is modulo `W = 2 ^ 64`. -/
def W : Nat := 2 ^ 64

/-- Result of running one C call: `ok` for defined behaviour, `undef` when
the call's execution is undefined in C (for this code base: reading through
a `NULL` handle, or an integer division by zero). -/
inductive CResult (α : Type) where
  | undef : CResult α
  | ok : α → CResult α
deriving DecidableEq

/-! ## BumpArena (`src/unnamed/part_000`) -/

/-- The `arena_t` struct: `data` is the buffer base (allocation results are
modelled as offsets from it, so the pointer itself is not stored), `size` is
the cursor (bytes currently used), `capacity` the fixed limit. -/
structure Arena where
  size : Nat
  capacity : Nat
deriving DecidableEq

/-- Success path of `arena_init`: `size = 0`, `capacity = capacity`, buffer
zero-filled by `calloc`. (On `malloc`/`calloc` failure the C function
returns `NULL`; claims quantify over the case where a handle was returned.) -/
def arena_init (capacity : Nat) : Arena :=
  { size := 0, capacity := capacity }

/-- Body of `arena_alloc` after the `NULL` check: fails when
`bytes > arena->capacity || arena->size > arena->capacity - bytes`, else
returns the offset `arena->size` and advances the cursor. The `-` here is
`Nat` truncated subtraction; C's unsigned subtraction can wrap when
`bytes > capacity`, but exactly as in the C source that operand is only
reached when the first disjunct has already failed, so the two conditions
coincide. The cursor update `size += bytes` cannot overflow `size_t` here
because the guard has established `size + bytes ≤ capacity`. -/
def Arena.alloc (a : Arena) (bytes : Nat) : Option Nat × Arena :=
  if bytes > a.capacity ∨ a.size > a.capacity - bytes then
    (none, a)
  else
    (some a.size, { a with size := a.size + bytes })

/-- The C function `arena_alloc(arena_t *arena, size_t bytes)`: `NULL`
handle returns `NULL` (a checked, defined no-op). -/
def arena_alloc (arena : Option Arena) (bytes : Nat) :
    CResult (Option Nat × Option Arena) :=
  match arena with
  | none => .ok (none, none)
  | some a =>
    let r := a.alloc bytes
    .ok (r.1, some r.2)

/-- Body of `arena_reset` on a non-`NULL` handle: sets the cursor to 0. -/
def Arena.reset (a : Arena) : Arena :=
  { a with size := 0 }

/-- The C function `arena_reset(arena_t *arena)`: `NULL`-checked. -/
def arena_reset (arena : Option Arena) : CResult (Option Arena) :=
  match arena with
  | none => .ok none
  | some a => .ok (some a.reset)

/-- The C function `arena_deinit(arena_t *arena)`: `NULL`-checked; frees the
buffer and the handle (memory release itself is not modelled). -/
def arena_deinit (arena : Option Arena) : CResult Unit :=
  match arena with
  | none => .ok ()
  | some _ => .ok ()

/-! ## StackAllocator (`MemStack` in `src/pool_allocator.h`) -/

/-- The `MemStack` struct: same shape as `arena_t`. -/
structure MemStack where
  size : Nat
  capacity : Nat
deriving DecidableEq

/-- Success path of `mem_stack_init`. -/
def mem_stack_init (bytes : Nat) : MemStack :=
  { size := 0, capacity := bytes }

/-- Body of `mem_stack_alloc` after the `NULL` check. The C guard is
`stack->size + bytes > stack->capacity` computed in `size_t`, so the sum is
taken modulo `W`: a huge `bytes` can wrap it. On success the stored cursor
is that same wrapped sum. -/
def MemStack.alloc (s : MemStack) (bytes : Nat) : Option Nat × MemStack :=
  if (s.size + bytes) % W > s.capacity then
    (none, s)
  else
    (some s.size, { s with size := (s.size + bytes) % W })

/-- The C function `mem_stack_alloc(MemStack *stack, size_t bytes)`. The
`NULL` branch of the source is `return;` with no value; we model it as
returning no pointer (`none`) with the handle untouched. -/
def mem_stack_alloc (stack : Option MemStack) (bytes : Nat) :
    CResult (Option Nat × Option MemStack) :=
  match stack with
  | none => .ok (none, none)
  | some s =>
    let r := s.alloc bytes
    .ok (r.1, some r.2)

/-- Body of `mem_stack_pop` after the `NULL` check: returns the C `int`
result (1 = success, 0 = failure). The subtraction `size -= bytes` is only
reached under `bytes ≤ size`, where `Nat` and `size_t` subtraction agree. -/
def MemStack.pop (s : MemStack) (bytes : Nat) : Nat × MemStack :=
  if bytes > s.size then
    (0, s)
  else
    (1, { s with size := s.size - bytes })

/-- The C function `mem_stack_pop(MemStack *stack, size_t bytes)` (declared
`int` in the header; the implementation's `NULL` branch is a bare `return;`,
modelled as no value, `none`). -/
def mem_stack_pop (stack : Option MemStack) (bytes : Nat) :
    CResult (Option Nat × Option MemStack) :=
  match stack with
  | none => .ok (none, none)
  | some s =>
    let r := s.pop bytes
    .ok (some r.1, some r.2)

/-- The C function `mem_stack_free(MemStack *stack)` (the deinit of this
allocator): `NULL`-checked; frees buffer and handle. -/
def mem_stack_free (stack : Option MemStack) : CResult Unit :=
  match stack with
  | none => .ok ()
  | some _ => .ok ()

/-! ## ChunkPool (`src/pool.h`, repeated in `src/pool_allocator.h`) -/

/-- The `pool_t` struct. The `ledger` byte array (`uint8_t*`) is modelled as
a function from byte index to byte value; the C code only ever touches byte
`index / 8` for `index < n_chunks`, which `pool_init`'s allocation of
`(n_chunks + 7) / 8` bytes keeps in bounds, so a total function is an
observationally faithful model of the array. `data` is the buffer base;
chunk pointers are modelled as byte offsets from it. -/
structure Pool where
  chunk_size : Nat
  n_chunks : Nat
  ledger : Nat → Nat

/-- Macro `CHECK_BIT(bitmap, index)`: `bitmap[index / 8] & (1 << (index % 8))`
(a C `int`, nonzero iff the bit is set). -/
def CHECK_BIT (bitmap : Nat → Nat) (index : Nat) : Nat :=
  bitmap (index / 8) &&& (1 <<< (index % 8))

/-- Macro `SET_BIT(bitmap, index)`: `bitmap[index / 8] |= (1 << (index % 8))`. -/
def SET_BIT (bitmap : Nat → Nat) (index : Nat) : Nat → Nat :=
  Function.update bitmap (index / 8)
    (bitmap (index / 8) ||| (1 <<< (index % 8)))

/-- Macro `CLEAR_BIT(bitmap, index)`: `bitmap[index / 8] &= ~(1 << (index % 8))`.
The complement is taken in `int` and the store truncates to `uint8_t`; on
byte values (< 256) that equals masking with `255 ^^^ (1 <<< (index % 8))`. -/
def CLEAR_BIT (bitmap : Nat → Nat) (index : Nat) : Nat → Nat :=
  Function.update bitmap (index / 8)
    (bitmap (index / 8) &&& (255 ^^^ (1 <<< (index % 8))))

/-- Success path of `pool_init`: buffer of `n_chunks * chunk_size` bytes and
a ledger of `(n_chunks + 7) / 8` bytes, both zero-filled by `calloc` (every
ledger byte is 0, i.e. all chunks free). -/
def pool_init (chunk_size n_chunks : Nat) : Pool :=
  { chunk_size := chunk_size, n_chunks := n_chunks, ledger := fun _ => 0 }

/-- Body of `pool_alloc`'s scan loop from index `i`: the first `i` in
`[i, n_chunks)` with `CHECK_BIT` zero gets its bit set and its chunk offset
`i * chunk_size` returned; if none, returns `NULL` with the pool unchanged. -/
def Pool.alloc (p : Pool) (i : Nat) : Option Nat × Pool :=
  if _h : i < p.n_chunks then
    if CHECK_BIT p.ledger i = 0 then
      (some (i * p.chunk_size), { p with ledger := SET_BIT p.ledger i })
    else
      p.alloc (i + 1)
  else
    (none, p)
termination_by p.n_chunks - i

/-- The C function `pool_alloc(pool_t *pool)`: the source has NO `NULL`
check — the loop bound reads `pool->n_chunks` through the handle, so a
`NULL` handle is undefined behaviour (`CResult.undef`). -/
def pool_alloc (pool : Option Pool) : CResult (Option Nat × Option Pool) :=
  match pool with
  | none => .undef
  | some p =>
    let r := p.alloc 0
    .ok (r.1, some r.2)

/-- Body of `pool_free` after its guard, for `chunk_size ≠ 0`: computes
`index = (chunk - data) / chunk_size` (here `chunk` is already the offset
from `data`) and clears bit `index` provided `index < n_chunks`. -/
def Pool.free (p : Pool) (chunk : Nat) : Pool :=
  let index := chunk / p.chunk_size
  if index < p.n_chunks then
    { p with ledger := CLEAR_BIT p.ledger index }
  else
    p

/-- The C function `pool_free(pool_t *pool, void *chunk)`: returns (a
defined no-op) when `chunk` or `pool` is `NULL` (the `data`/`ledger` fields
are non-`NULL` on every modelled handle, as `pool_init` checked them);
otherwise divides by `pool->chunk_size`, which is undefined for a
zero `chunk_size`. -/
def pool_free (pool : Option Pool) (chunk : Option Nat) :
    CResult (Option Pool) :=
  match chunk, pool with
  | none, _ => .ok pool
  | some _, none => .ok none
  | some off, some p =>
    if p.chunk_size = 0 then .undef
    else .ok (some (p.free off))

/-- The C function `pool_deinit(pool_t *pool)`: `NULL`-checked; frees data,
ledger and handle. -/
def pool_deinit (pool : Option Pool) : CResult Unit :=
  match pool with
  | none => .ok ()
  | some _ => .ok ()

/-! ## Harness for sequences of operations

The claims quantify over finite sequences of calls on a valid handle; the
following runners and step relations chain the per-call functions above. -/

/-- Two regions `(offset, length)` do not overlap: one ends at or before the
other starts (a zero-length region overlaps nothing). -/
def regionsDisjoint (r₁ r₂ : Nat × Nat) : Prop :=
  r₁.1 + r₁.2 ≤ r₂.1 ∨ r₂.1 + r₂.2 ≤ r₁.1

/-- Run a list of `arena_alloc` requests on a valid handle, collecting the
returned regions `(offset, length)`; `none` if any call returns `NULL`. -/
def Arena.allocAll : Arena → List Nat → Option (List (Nat × Nat) × Arena)
  | a, [] => some ([], a)
  | a, bytes :: rest =>
    match a.alloc bytes with
    | (some off, a₁) =>
      match a₁.allocAll rest with
      | some (rs, a₂) => some ((off, bytes) :: rs, a₂)
      | none => none
    | (none, _) => none

/-- Run a list of `mem_stack_alloc` requests on a valid handle, collecting
the returned regions; `none` if any call returns `NULL`. -/
def MemStack.allocAll : MemStack → List Nat → Option (List (Nat × Nat) × MemStack)
  | s, [] => some ([], s)
  | s, bytes :: rest =>
    match s.alloc bytes with
    | (some off, s₁) =>
      match s₁.allocAll rest with
      | some (rs, s₂) => some ((off, bytes) :: rs, s₂)
      | none => none
    | (none, _) => none

/-- Mutating operations of the BumpArena on a valid handle. -/
inductive ArenaOp where
  | alloc : Nat → ArenaOp
  | reset : ArenaOp

/-- State transition of one BumpArena operation. -/
def Arena.step (a : Arena) : ArenaOp → Arena
  | .alloc bytes => (a.alloc bytes).2
  | .reset => a.reset

/-- Mutating operations of the StackAllocator on a valid handle. -/
inductive StackOp where
  | alloc : Nat → StackOp
  | pop : Nat → StackOp

/-- State transition of one StackAllocator operation. -/
def MemStack.step (s : MemStack) : StackOp → MemStack
  | .alloc bytes => (s.alloc bytes).2
  | .pop bytes => (s.pop bytes).2

/-- One defined-behaviour mutating call on a valid ChunkPool handle:
a `pool_alloc`, or a `pool_free` whose execution is defined (`CResult.ok`). -/
inductive PoolStep : Pool → Pool → Prop where
  | alloc (p : Pool) : PoolStep p (p.alloc 0).2
  | free (p q : Pool) (chunk : Option Nat) :
      pool_free (some p) chunk = .ok (some q) → PoolStep p q

/-! ## Helper lemmas about the ledger bit macros -/

lemma CHECK_BIT_eq (bitmap : Nat → Nat) (index : Nat) :
    CHECK_BIT bitmap index =
      ((bitmap (index / 8)).testBit (index % 8)).toNat * 2 ^ (index % 8) := by
  rw [CHECK_BIT, Nat.one_shiftLeft, Nat.and_two_pow]

lemma CHECK_BIT_eq_zero (bitmap : Nat → Nat) (index : Nat) :
    CHECK_BIT bitmap index = 0 ↔
      (bitmap (index / 8)).testBit (index % 8) = false := by
  rw [CHECK_BIT_eq]
  cases h : (bitmap (index / 8)).testBit (index % 8) <;>
    simp [h, Nat.pow_eq_zero]

lemma CHECK_BIT_SET_BIT_self (bitmap : Nat → Nat) (i : Nat) :
    CHECK_BIT (SET_BIT bitmap i) i ≠ 0 := by
  simp [CHECK_BIT_eq_zero, SET_BIT, Function.update_same, Nat.one_shiftLeft,
    Nat.testBit_lor, Nat.testBit_two_pow_self]

lemma CHECK_BIT_SET_BIT_ne (bitmap : Nat → Nat) (i j : Nat) (h : j ≠ i) :
    CHECK_BIT (SET_BIT bitmap i) j = CHECK_BIT bitmap j := by
  by_cases hd : j / 8 = i / 8
  · have hm : i % 8 ≠ j % 8 := by omega
    rw [CHECK_BIT_eq, CHECK_BIT_eq, SET_BIT, hd, Function.update_same,
      Nat.one_shiftLeft, Nat.testBit_lor, Nat.testBit_two_pow_of_ne hm]
    simp
  · rw [CHECK_BIT, CHECK_BIT, SET_BIT, Function.update_noteq hd]

lemma CHECK_BIT_CLEAR_BIT_self (bitmap : Nat → Nat) (i : Nat) :
    CHECK_BIT (CLEAR_BIT bitmap i) i = 0 := by
  rw [CHECK_BIT_eq_zero, CLEAR_BIT, Function.update_same, Nat.one_shiftLeft,
    Nat.testBit_land, Nat.testBit_xor]
  have h255 : (255 : Nat) = 2 ^ 8 - 1 := by norm_num
  rw [h255, Nat.testBit_two_pow_sub_one, Nat.testBit_two_pow_self]
  simp [Nat.mod_lt i (show 0 < 8 by norm_num)]

/-! ## Helper lemmas about the ChunkPool scan loop -/

lemma Pool.alloc_out (p : Pool) (k : Nat) (hk : ¬ k < p.n_chunks) :
    p.alloc k = (none, p) := by
  rw [Pool.alloc, dif_neg hk]

lemma Pool.alloc_fields (p : Pool) (k : Nat) :
    (p.alloc k).2.chunk_size = p.chunk_size ∧
      (p.alloc k).2.n_chunks = p.n_chunks := by
  induction k using Pool.alloc.induct with
  | p => exact p
  | case1 i hlt hbit => rw [Pool.alloc, dif_pos hlt, if_pos hbit]; exact ⟨rfl, rfl⟩
  | case2 i hlt hbit ih => rw [Pool.alloc, dif_pos hlt, if_neg hbit]; exact ih
  | case3 i hlt => rw [Pool.alloc, dif_neg hlt]; exact ⟨rfl, rfl⟩

lemma Pool.alloc_spec (p : Pool) (k : Nat) :
    ((p.alloc k).1 = none →
      ((p.alloc k).2 = p ∧ ∀ i, k ≤ i → i < p.n_chunks → CHECK_BIT p.ledger i ≠ 0))
    ∧ (∀ off, (p.alloc k).1 = some off →
        ∃ i, k ≤ i ∧ i < p.n_chunks ∧ CHECK_BIT p.ledger i = 0 ∧
          (∀ j, k ≤ j → j < i → CHECK_BIT p.ledger j ≠ 0) ∧
          off = i * p.chunk_size ∧
          (p.alloc k).2 = { p with ledger := SET_BIT p.ledger i }) := by
  induction k using Pool.alloc.induct with
  | p => exact p
  | case1 i hlt hbit =>
    rw [Pool.alloc, dif_pos hlt, if_pos hbit]
    constructor
    · intro h; exact absurd h (by simp)
    · intro off hoff
      refine ⟨i, le_refl i, hlt, hbit, fun j hij hji => absurd hij (by omega), ?_, rfl⟩
      simpa using hoff.symm
  | case2 i hlt hbit ih =>
    rw [Pool.alloc, dif_pos hlt, if_neg hbit]
    constructor
    · intro h
      obtain ⟨hst, hall⟩ := ih.1 h
      refine ⟨hst, fun j hij hjn => ?_⟩
      rcases Nat.eq_or_lt_of_le hij with heq | hlt2
      · exact heq ▸ hbit
      · exact hall j hlt2 hjn
    · intro off hoff
      obtain ⟨m, him, hmn, hcb, hfirst, hoffeq, hst⟩ := ih.2 off hoff
      refine ⟨m, by omega, hmn, hcb, fun j hij hjm => ?_, hoffeq, hst⟩
      rcases Nat.eq_or_lt_of_le hij with heq | hlt2
      · exact heq ▸ hbit
      · exact hfirst j hlt2 hjm
  | case3 i hlt =>
    rw [Pool.alloc, dif_neg hlt]
    constructor
    · intro _; exact ⟨rfl, fun j hij hjn => absurd hjn (by omega)⟩
    · intro off hoff; exact absurd hoff (by simp)

lemma Pool.free_fields (p : Pool) (chunk : Nat) :
    (p.free chunk).chunk_size = p.chunk_size ∧
      (p.free chunk).n_chunks = p.n_chunks := by
  by_cases h : chunk / p.chunk_size < p.n_chunks <;> simp [Pool.free, h]

lemma PoolStep.fields {p q : Pool} (h : PoolStep p q) :
    q.chunk_size = p.chunk_size ∧ q.n_chunks = p.n_chunks := by
  cases h with
  | alloc => exact Pool.alloc_fields p 0
  | free _ chunk heq =>
    cases chunk with
    | none =>
      simp only [pool_free] at heq
      cases heq
      exact ⟨rfl, rfl⟩
    | some off =>
      by_cases hcs : p.chunk_size = 0
      · simp [pool_free, hcs] at heq
      · simp only [pool_free, if_neg hcs] at heq
        cases heq
        exact Pool.free_fields p off

/-! ## Helper lemmas about allocation sequences and the cursor invariant -/

lemma arena_allocAll_spec : ∀ (reqs : List Nat) (a : Arena),
    a.size + reqs.sum ≤ a.capacity →
    ∃ rs a₂, Arena.allocAll a reqs = some (rs, a₂) ∧
      a₂.capacity = a.capacity ∧ a₂.size = a.size + reqs.sum ∧
      rs.map Prod.snd = reqs ∧
      (∀ r ∈ rs, a.size ≤ r.1 ∧ r.1 + r.2 ≤ a₂.size) ∧
      rs.Pairwise regionsDisjoint
  | [], a, _h => ⟨[], a, rfl, rfl, by simp, rfl, by simp, List.Pairwise.nil⟩
  | bytes :: rest, a, h => by
    simp only [List.sum_cons] at h
    have hcond : ¬ (bytes > a.capacity ∨ a.size > a.capacity - bytes) := by omega
    have halloc : a.alloc bytes = (some a.size, { a with size := a.size + bytes }) := by
      rw [Arena.alloc, if_neg hcond]
    obtain ⟨rs, a₂, hrun, hcap, hsize, hmap, hbounds, hpw⟩ :=
      arena_allocAll_spec rest { a with size := a.size + bytes } (by simp; omega)
    simp only at hsize hcap
    have hbounds' : ∀ r ∈ rs, a.size + bytes ≤ r.1 ∧ r.1 + r.2 ≤ a₂.size :=
      fun r hr => hbounds r hr
    refine ⟨(a.size, bytes) :: rs, a₂, ?_, hcap, ?_, ?_, ?_, ?_⟩
    · simp only [Arena.allocAll, halloc, hrun]
    · simp only [List.sum_cons]; omega
    · simp [hmap]
    · intro r hr
      rcases List.mem_cons.mp hr with rfl | hr
    
      · exact ⟨le_refl _, show a.size + bytes ≤ a₂.size by omega⟩
      · have hb := hbounds' r hr
        exact ⟨by omega, hb.2⟩
    · refine List.Pairwise.cons (fun r hr => ?_) hpw
      have hb := hbounds' r hr
      exact Or.inl (show a.size + bytes ≤ r.1 by omega)

lemma mem_stack_allocAll_spec : ∀ (reqs : List Nat) (s : MemStack),
    s.capacity < W → s.size + reqs.sum ≤ s.capacity →
    ∃ rs s₂, MemStack.allocAll s reqs = some (rs, s₂) ∧
      s₂.capacity = s.capacity ∧ s₂.size = s.size + reqs.sum ∧
      rs.map Prod.snd = reqs ∧
      (∀ r ∈ rs, s.size ≤ r.1 ∧ r.1 + r.2 ≤ s₂.size) ∧
      rs.Pairwise regionsDisjoint
  | [], s, _hW, _h => ⟨[], s, rfl, rfl, by simp, rfl, by simp, List.Pairwise.nil⟩
  | bytes :: rest, s, hW, h => by
    simp only [List.sum_cons] at h
    have hmod : (s.size + bytes) % W = s.size + bytes := Nat.mod_eq_of_lt (by omega)
    have hcond : ¬ ((s.size + bytes) % W > s.capacity) := by rw [hmod]; omega
    have halloc : s.alloc bytes = (some s.size, { s with size := s.size + bytes }) := by
      rw [MemStack.alloc, if_neg hcond, hmod]
    obtain ⟨rs, s₂, hrun, hcap, hsize, hmap, hbounds, hpw⟩ :=
      mem_stack_allocAll_spec rest { s with size := s.size + bytes } hW (by simp; omega)
    simp only at hsize hcap
    have hbounds' : ∀ r ∈ rs, s.size + bytes ≤ r.1 ∧ r.1 + r.2 ≤ s₂.size :=
      fun r hr => hbounds r hr
    refine ⟨(s.size, bytes) :: rs, s₂, ?_, hcap, ?_, ?_, ?_, ?_⟩
    · simp only [MemStack.allocAll, halloc, hrun]
    · simp only [List.sum_cons]; omega
    · simp [hmap]
    · intro r hr
      rcases List.mem_cons.mp hr with rfl | hr
    
      · exact ⟨le_refl _, show s.size + bytes ≤ s₂.size by omega⟩
      · have hb := hbounds' r hr
        exact ⟨by omega, hb.2⟩
    · refine List.Pairwise.cons (fun r hr => ?_) hpw
      have hb := hbounds' r hr
      exact Or.inl (show s.size + bytes ≤ r.1 by omega)

lemma arena_step_inv (a : Arena) (op : ArenaOp) (h : a.size ≤ a.capacity) :
    (a.step op).size ≤ (a.step op).capacity := by
  cases op with
  | alloc bytes =>
    simp only [Arena.step, Arena.alloc]
    by_cases hc : bytes > a.capacity ∨ a.size > a.capacity - bytes
    · rw [if_pos hc]; exact h
    · rw [if_neg hc]; simp only; omega
  | reset => simp [Arena.step, Arena.reset]

lemma mem_stack_step_inv (s : MemStack) (op : StackOp) (h : s.size ≤ s.capacity) :
    (s.step op).size ≤ (s.step op).capacity := by
  cases op with
  | alloc bytes =>
    simp only [MemStack.step, MemStack.alloc]
    by_cases hc : (s.size + bytes) % W > s.capacity
    · rw [if_pos hc]; exact h
    · rw [if_neg hc]; simp only; omega
  | pop bytes =>
    simp only [MemStack.step, MemStack.pop]
    by_cases hc : bytes > s.size
    · rw [if_pos hc]; exact h
    · rw [if_neg hc]; simp only; omega

lemma arena_run_inv (ops : List ArenaOp) : ∀ (a : Arena), a.size ≤ a.capacity →
    (List.foldl Arena.step a ops).size ≤ (List.foldl Arena.step a ops).capacity := by
  induction ops with
  | nil => intro a h; simpa
  | cons op ops ih => intro a h; rw [List.foldl_cons]; exact ih _ (arena_step_inv a op h)

lemma mem_stack_run_inv (ops : List StackOp) : ∀ (s : MemStack), s.size ≤ s.capacity →
    (List.foldl MemStack.step s ops).size ≤ (List.foldl MemStack.step s ops).capacity := by
  induction ops with
  | nil => intro s h; simpa
  | cons op ops ih => intro s h; rw [List.foldl_cons]; exact ih _ (mem_stack_step_inv s op h)

/-! ## Claim theorems -/

/-- Claim C1 (code_bug): the claim says `mem_stack_alloc` fails exactly when
the true (unbounded) sum `cursor + bytes` exceeds `capacity`, computed so
that a very large `bytes` cannot wrap the sum modulo the word size. The code
computes `stack->size + bytes` in `size_t`, which wraps: on a stack with
`cursor = 5`, `capacity = 10`, requesting `2^64 - 5` bytes makes the true
sum `2^64 > 10`, yet the wrapped sum is `0 ≤ 10` and the call is reported as
a success (it returns the view at offset 5 and stores the wrapped cursor 0). -/
theorem mem_stack_alloc_wraps_on_huge_request :
    5 + (W - 5) > 10 ∧
    mem_stack_alloc (some ⟨5, 10⟩) (W - 5) = .ok (some 5, some ⟨0, 10⟩) := by
  constructor
  · show 5 + (2 ^ 64 - 5) > 10
    norm_num
  · rfl

/-- Claim C2, counterexample: `pool_init(chunk_size = 0, chunk_count = 4)`
returns a handle, and the very first `pool_alloc` on it SUCCEEDS (returning
the offset 0, i.e. the buffer base), so such a pool is not permanently
empty as claimed. -/
theorem pool_alloc_succeeds_on_zero_chunk_size :
    pool_alloc (some (pool_init 0 4)) = .ok (some 0, some ((pool_init 0 4).alloc 0).2) ∧
    (pool_init 0 4).chunk_size = 0 := by
  constructor
  · show CResult.ok (((pool_init 0 4).alloc 0).1, some ((pool_init 0 4).alloc 0).2) = _
    have h : ((pool_init 0 4).alloc 0).1 = some 0 := by
      simp [Pool.alloc, CHECK_BIT, pool_init]
    rw [h]
  · rfl

/-- Claim C2, amended: a pool created by `pool_init(chunk_size, 0)` (zero
`chunk_count`) is valid but permanently empty — every `pool_alloc` on any
state reachable from it by defined allocate/free calls fails — whereas a
pool with `chunk_size = 0` but `chunk_count > 0` is not permanently empty. -/
theorem pool_zero_chunk_count_permanently_empty (cs : Nat) (q : Pool)
    (hr : Relation.ReflTransGen PoolStep (pool_init cs 0) q) :
    pool_alloc (some q) = .ok (none, some q) := by
  have hq : q.n_chunks = 0 := by
    induction hr with
    | refl => rfl
    | tail _ hstep ih => rw [(PoolStep.fields hstep).2, ih]
  have halloc : q.alloc 0 = (none, q) := Pool.alloc_out q 0 (by omega)
  show CResult.ok ((q.alloc 0).1, some (q.alloc 0).2) = _
  rw [halloc]

/-- Witness for C2's amended theorem at `chunk_size = 7` and the freshly
initialized pool itself. -/
theorem pool_zero_chunk_count_permanently_empty_witness :
    pool_alloc (some (pool_init 7 0)) = .ok (none, some (pool_init 7 0)) :=
  pool_zero_chunk_count_permanently_empty 7 (pool_init 7 0) Relation.ReflTransGen.refl

/-- Claim C3, counterexample: the claim says every public operation called
with a `NULL` handle is a non-aborting no-op/failure, but `pool_alloc` has
no `NULL` check — its loop bound reads `pool->n_chunks` through the handle,
which is undefined behaviour on a `NULL` handle (`CResult.undef` in this
embedding). -/
theorem pool_alloc_null_handle_undefined : pool_alloc none = CResult.undef := rfl

/-- Claim C3, amended: every public operation of the three allocators
EXCEPT ChunkPool's `pool_alloc` is total and non-aborting on a `NULL`
handle, yielding a no-op, a boolean failure, or an absent result;
`pool_alloc` alone dereferences the invalid handle. -/
theorem null_handle_ops_safe_except_pool_alloc :
    (∀ bytes, arena_alloc none bytes = .ok (none, none)) ∧
    arena_reset none = .ok none ∧
    arena_deinit none = .ok () ∧
    (∀ bytes, mem_stack_alloc none bytes = .ok (none, none)) ∧
    (∀ bytes, mem_stack_pop none bytes = .ok (none, none)) ∧
    mem_stack_free none = .ok () ∧
    (∀ chunk, pool_free none chunk = .ok none) ∧
    pool_deinit none = .ok () :=
  ⟨fun _ => rfl, rfl, rfl, fun _ => rfl, fun _ => rfl, rfl,
    fun chunk => by cases chunk <;> rfl, rfl⟩

/-- Claim C4 (confirmed): for a valid BumpArena handle with
`cursor ≤ capacity`, `arena_alloc` fails exactly when `bytes > capacity` or
`cursor > capacity - bytes`, where the subtraction is the true integer
subtraction (stated over `ℤ`, so the characterization is meaningful even
when `bytes > capacity` — the code's evaluation order prevents any unsigned
underflow from corrupting the check); on success it returns the view at the
current cursor and advances the cursor by `bytes`. -/
theorem arena_alloc_bounds_exact (a : Arena) (bytes : Nat)
    (_h : a.size ≤ a.capacity) :
    ((a.alloc bytes).1 = none ↔
      ((a.capacity : ℤ) < (bytes : ℤ) ∨
        (a.capacity : ℤ) - (bytes : ℤ) < (a.size : ℤ)))
    ∧ ((a.alloc bytes).1 ≠ none →
        a.alloc bytes = (some a.size, { a with size := a.size + bytes })) := by
  by_cases hc : bytes > a.capacity ∨ a.size > a.capacity - bytes
  · rw [Arena.alloc, if_pos hc]
    exact ⟨⟨fun _ => by omega, fun _ => rfl⟩, fun hne => absurd rfl hne⟩
  · rw [Arena.alloc, if_neg hc]
    refine ⟨⟨fun hnone => absurd hnone (by simp), fun hz => absurd hz (by omega)⟩, fun _ => rfl⟩

/-- Witness for C4 on an arena with cursor 2, capacity 10 and a request of
3 bytes: the allocation succeeds at offset 2 and the cursor advances to 5. -/
theorem arena_alloc_bounds_exact_witness :
    (⟨2, 10⟩ : Arena).alloc 3 = (some 2, ⟨5, 10⟩) :=
  (arena_alloc_bounds_exact ⟨2, 10⟩ 3 (by norm_num)).2 (by decide)

/-- Claim C5 (confirmed): `mem_stack_pop` with `bytes ≤ cursor` returns 1
and decreases the cursor by exactly `bytes`; with `bytes > cursor` it
returns 0 and leaves the state (cursor and capacity) unchanged. -/
theorem mem_stack_pop_exact (s : MemStack) (bytes : Nat) :
    (bytes ≤ s.size →
      mem_stack_pop (some s) bytes = .ok (some 1, some ⟨s.size - bytes, s.capacity⟩) ∧
      s.size - bytes + bytes = s.size)
    ∧ (bytes > s.size →
      mem_stack_pop (some s) bytes = .ok (some 0, some s)) := by
  constructor
  · intro hle
    constructor
    · show CResult.ok (some (s.pop bytes).1, some (s.pop bytes).2) = _
      rw [MemStack.pop, if_neg (by omega)]
    · omega
  · intro hgt
    show CResult.ok (some (s.pop bytes).1, some (s.pop bytes).2) = _
    rw [MemStack.pop, if_pos hgt]

/-- Witness for C5: popping 3 bytes from a stack with cursor 5 and capacity
10 succeeds and leaves the cursor at 2. -/
theorem mem_stack_pop_exact_witness :
    mem_stack_pop (some ⟨5, 10⟩) 3 = .ok (some 1, some ⟨2, 10⟩) :=
  ((mem_stack_pop_exact ⟨5, 10⟩ 3).1 (by norm_num)).1

/-- Claim C6 (confirmed): for every capacity `C` (a `size_t`, so `C < W`)
and every finite sequence of allocation requests on a freshly initialized
BumpArena or StackAllocator whose cumulative size is at most `C`, every
allocate call succeeds, each returned region carries the requested length,
and the regions are pairwise non-overlapping and contained in `[0, C)`. -/
theorem alloc_sequences_succeed_disjoint (C : Nat) (reqs : List Nat)
    (hC : C < W) (hsum : reqs.sum ≤ C) :
    (∃ rs a₂, Arena.allocAll (arena_init C) reqs = some (rs, a₂) ∧
      rs.map Prod.snd = reqs ∧ rs.Pairwise regionsDisjoint ∧
      ∀ r ∈ rs, r.1 + r.2 ≤ C) ∧
    (∃ rs s₂, MemStack.allocAll (mem_stack_init C) reqs = some (rs, s₂) ∧
      rs.map Prod.snd = reqs ∧ rs.Pairwise regionsDisjoint ∧
      ∀ r ∈ rs, r.1 + r.2 ≤ C) := by
  constructor
  · obtain ⟨rs, a₂, hrun, hcap, hsize, hmap, hbounds, hpw⟩ :=
      arena_allocAll_spec reqs (arena_init C) (show 0 + reqs.sum ≤ C by omega)
    refine ⟨rs, a₂, hrun, hmap, hpw, fun r hr => ?_⟩
    have h2 : r.1 + r.2 ≤ a₂.size := (hbounds r hr).2
    have h3 : a₂.size = 0 + reqs.sum := hsize
    omega
  · obtain ⟨rs, s₂, hrun, hcap, hsize, hmap, hbounds, hpw⟩ :=
      mem_stack_allocAll_spec reqs (mem_stack_init C) hC (show 0 + reqs.sum ≤ C by omega)
    refine ⟨rs, s₂, hrun, hmap, hpw, fun r hr => ?_⟩
    have h2 : r.1 + r.2 ≤ s₂.size := (hbounds r hr).2
    have h3 : s₂.size = 0 + reqs.sum := hsize
    omega

/-- Witness for C6 at capacity 10 and requests `[3, 4, 3]`. -/
theorem alloc_sequences_succeed_disjoint_witness :
    (∃ rs a₂, Arena.allocAll (arena_init 10) [3, 4, 3] = some (rs, a₂) ∧
      rs.map Prod.snd = [3, 4, 3] ∧ rs.Pairwise regionsDisjoint ∧
      ∀ r ∈ rs, r.1 + r.2 ≤ 10) ∧
    (∃ rs s₂, MemStack.allocAll (mem_stack_init 10) [3, 4, 3] = some (rs, s₂) ∧
      rs.map Prod.snd = [3, 4, 3] ∧ rs.Pairwise regionsDisjoint ∧
      ∀ r ∈ rs, r.1 + r.2 ≤ 10) :=
  alloc_sequences_succeed_disjoint 10 [3, 4, 3] (by norm_num [W]) (by decide)

/-- Claim C7 (confirmed): `pool_alloc` returns the offset `i * chunk_size`
where `i` is the smallest index in `[0, chunk_count)` whose ledger bit is
clear, it sets exactly that bit (bit `i` becomes set, every other bit keeps
its value), and it returns absence exactly when every ledger bit for
indices in `[0, chunk_count)` is set. -/
theorem pool_alloc_first_fit (p : Pool) :
    ((p.alloc 0).1 = none ↔ ∀ i, i < p.n_chunks → CHECK_BIT p.ledger i ≠ 0)
    ∧ ((p.alloc 0).1 = none → (p.alloc 0).2 = p)
    ∧ (∀ off, (p.alloc 0).1 = some off →
        ∃ i, i < p.n_chunks ∧ CHECK_BIT p.ledger i = 0 ∧
          (∀ j, j < i → CHECK_BIT p.ledger j ≠ 0) ∧
          off = i * p.chunk_size ∧
          (p.alloc 0).2 = { p with ledger := SET_BIT p.ledger i } ∧
          CHECK_BIT (SET_BIT p.ledger i) i ≠ 0 ∧
          (∀ j, j ≠ i → CHECK_BIT (SET_BIT p.ledger i) j = CHECK_BIT p.ledger j)) := by
  obtain ⟨hnone, hsome⟩ := Pool.alloc_spec p 0
  refine ⟨⟨fun h i hi => (hnone h).2 i (Nat.zero_le i) hi, fun hall => ?_⟩,
    fun h => (hnone h).1, fun off hoff => ?_⟩
  · cases hres : (p.alloc 0).1 with
    | none => rfl
    | some off =>
      obtain ⟨i, _, hin, hcb, _, _, _⟩ := hsome off hres
      exact absurd hcb (hall i hin)
  · obtain ⟨i, _, hin, hcb, hfirst, hoffeq, hst⟩ := hsome off hoff
    exact ⟨i, hin, hcb, fun j hj => hfirst j (Nat.zero_le j) hj, hoffeq, hst,
      CHECK_BIT_SET_BIT_self p.ledger i, fun j hj => CHECK_BIT_SET_BIT_ne p.ledger i j hj⟩

/-- Witness for C7 on a pool with zero chunks: the all-bits-set description
of failure is discharged vacuously and the allocation indeed fails. -/
theorem pool_alloc_first_fit_witness : ((pool_init 8 0).alloc 0).1 = none :=
  (pool_alloc_first_fit (pool_init 8 0)).1.mpr (fun i hi => absurd hi (Nat.not_lt_zero i))

/-- Claim C8 (confirmed): for BumpArena and StackAllocator, `cursor ≤
capacity` holds at initialization, is preserved by every single operation
(allocate/reset for the arena, allocate/pop for the stack), and therefore
holds after every finite sequence of operations on a fresh allocator. -/
theorem cursor_le_capacity_invariant :
    (∀ C : Nat, (arena_init C).size ≤ (arena_init C).capacity) ∧
    (∀ (a : Arena) (op : ArenaOp), a.size ≤ a.capacity →
      (a.step op).size ≤ (a.step op).capacity) ∧
    (∀ (C : Nat) (ops : List ArenaOp),
      (List.foldl Arena.step (arena_init C) ops).size ≤
        (List.foldl Arena.step (arena_init C) ops).capacity) ∧
    (∀ C : Nat, (mem_stack_init C).size ≤ (mem_stack_init C).capacity) ∧
    (∀ (s : MemStack) (op : StackOp), s.size ≤ s.capacity →
      (s.step op).size ≤ (s.step op).capacity) ∧
    (∀ (C : Nat) (ops : List StackOp),
      (List.foldl MemStack.step (mem_stack_init C) ops).size ≤
        (List.foldl MemStack.step (mem_stack_init C) ops).capacity) :=
  ⟨fun C => Nat.zero_le C,
   fun a op h => arena_step_inv a op h,
   fun C ops => arena_run_inv ops (arena_init C) (Nat.zero_le C),
   fun C => Nat.zero_le C,
   fun s op h => mem_stack_step_inv s op h,
   fun C ops => mem_stack_run_inv ops (mem_stack_init C) (Nat.zero_le C)⟩

/-- Witness for C8: one allocation step on an arena with cursor 3 and
capacity 10 keeps the cursor within capacity. -/
theorem cursor_le_capacity_invariant_witness :
    (Arena.step ⟨3, 10⟩ (ArenaOp.alloc 2)).size ≤
      (Arena.step ⟨3, 10⟩ (ArenaOp.alloc 2)).capacity :=
  cursor_le_capacity_invariant.2.1 ⟨3, 10⟩ (ArenaOp.alloc 2) (by norm_num)

/-- Claim C9 (confirmed): for a pool with `chunk_size > 0`, `pool_free`
computes `index = offset / chunk_size` and clears ledger bit `index` when
`index < chunk_count` (afterwards `CHECK_BIT` of that index is 0); when the
pool handle or the chunk pointer is `NULL`, or the computed index is `≥
chunk_count`, the call is a silent no-op leaving the state (hence every
valid chunk's ledger bit) unchanged. -/
theorem pool_free_frame (p : Pool) (off : Nat) (hcs : 0 < p.chunk_size) :
    (off / p.chunk_size < p.n_chunks →
      pool_free (some p) (some off) =
        .ok (some { p with ledger := CLEAR_BIT p.ledger (off / p.chunk_size) }) ∧
      CHECK_BIT (CLEAR_BIT p.ledger (off / p.chunk_size)) (off / p.chunk_size) = 0)
    ∧ (p.n_chunks ≤ off / p.chunk_size →
        pool_free (some p) (some off) = .ok (some p))
    ∧ (∀ chunk, pool_free none chunk = .ok none)
    ∧ pool_free (some p) none = .ok (some p) := by
  have hne : ¬ p.chunk_size = 0 := by omega
  refine ⟨fun hlt => ⟨?_, CHECK_BIT_CLEAR_BIT_self p.ledger (off / p.chunk_size)⟩,
    fun hge => ?_, fun chunk => by cases chunk <;> rfl, rfl⟩
  · simp [pool_free, hne, Pool.free, hlt]
  · simp [pool_free, hne, Pool.free, show ¬ off / p.chunk_size < p.n_chunks by omega]

/-- Witness for C9 on `pool_init 4 2` and offset 4 (chunk index 1). -/
theorem pool_free_frame_witness :
    pool_free (some (pool_init 4 2)) (some 4) =
      .ok (some { pool_init 4 2 with ledger := CLEAR_BIT (pool_init 4 2).ledger 1 }) ∧
    CHECK_BIT (CLEAR_BIT (pool_init 4 2).ledger 1) 1 = 0 :=
  (pool_free_frame (pool_init 4 2) 4 (by decide)).1 (by decide)

/-- Claim C10 (confirmed): on any valid BumpArena or StackAllocator handle
with `cursor ≤ capacity` (and, for the stack, a `size_t` cursor, i.e.
`cursor < W`), a zero-byte allocation succeeds, returning the view at the
current cursor and leaving the whole state unchanged — even when the
allocator is full or has capacity 0. -/
theorem zero_byte_alloc_succeeds (a : Arena) (s : MemStack)
    (ha : a.size ≤ a.capacity) (hs : s.size ≤ s.capacity) (hsW : s.size < W) :
    arena_alloc (some a) 0 = .ok (some a.size, some a) ∧
    mem_stack_alloc (some s) 0 = .ok (some s.size, some s) := by
  constructor
  · show CResult.ok ((a.alloc 0).1, some (a.alloc 0).2) = _
    have heq : a.alloc 0 = (some a.size, a) := by
      rw [Arena.alloc, if_neg (by omega), Nat.add_zero]
    rw [heq]
  · show CResult.ok ((s.alloc 0).1, some (s.alloc 0).2) = _
    have hmod : (s.size + 0) % W = s.size := by
      rw [Nat.add_zero]; exact Nat.mod_eq_of_lt hsW
    have heq : s.alloc 0 = (some s.size, s) := by
      rw [MemStack.alloc, if_neg (by rw [hmod]; omega), hmod]
    rw [heq]

/-- Witness for C10: a completely full arena (cursor 10 = capacity 10) and
a capacity-0 stack both accept a zero-byte allocation. -/
theorem zero_byte_alloc_succeeds_witness :
    arena_alloc (some ⟨10, 10⟩) 0 = .ok (some 10, some ⟨10, 10⟩) ∧
    mem_stack_alloc (some ⟨0, 0⟩) 0 = .ok (some 0, some ⟨0, 0⟩) :=
  zero_byte_alloc_succeeds ⟨10, 10⟩ ⟨0, 0⟩ (by norm_num) (by norm_num) (by norm_num [W])
